import Mathlib

/-!
Verification of the tsswitch core engine (`src/tstools/tsswitchCore.h`).

The repository provides the class declaration of `ts::tsswitch::Core`
(data members, the nested `Action` class with its inline constructors, and
the documented signatures of every public operation).  The implementation
file `tsswitchCore.cpp` is not among the sources, so the bodies of the
operations are modelled from the specification; each such definition
carries a doc comment starting with `Modelled from the spec:`.  The
`Action` constructors are taken directly from the header, where they are
defined inline.

Machine integers (`size_t`) are modelled as `Nat`; the claims under study
never exercise overflow.  The mutex/condition wiring is not modelled:
every operation is an atomic transformation of the coordinator state, which
is exactly the abstraction the single global lock provides.  The blocking
wait inside `getOutputArea` is modelled by evaluating the call at the
moment the wait condition releases.
-/

namespace TsSwitch

/-- Action types, from the `ActionType` enum in `tsswitchCore.h`. -/
inductive ActionType where
  | NONE
  | START
  | WAIT_STARTED
  | WAIT_INPUT
  | STOP
  | WAIT_STOPPED
  | NOTIF_CURRENT
  | SET_CURRENT
deriving DecidableEq, Repr

/-- Numeric value of an enum constant, in declaration order (C++ enum). -/
def ActionType.toNat : ActionType → Nat
  | .NONE => 0
  | .START => 1
  | .WAIT_STARTED => 2
  | .WAIT_INPUT => 3
  | .STOP => 4
  | .WAIT_STOPPED => 5
  | .NOTIF_CURRENT => 6
  | .SET_CURRENT => 7

/-- The `Core::Action` class: an action with its parameters
(`tsswitchCore.h`, lines 156-175). -/
structure Action where
  type : ActionType
  index : Nat
  flag : Bool
deriving DecidableEq, Repr

/-- The default `Action` constructor: `Action(ActionType t = NONE, size_t
i = 0, bool f = false)` called with no argument (header line 165). -/
def Action.dfl : Action := ⟨ActionType.NONE, 0, false⟩

/-- The copy constructor changing the flag: `Action(const Action& other,
bool f) : type(other.type), index(other.index), flag(f)` (header line 168). -/
def Action.copyWithFlag (other : Action) (f : Bool) : Action :=
  ⟨other.type, other.index, f⟩

/-- Modelled from the spec: `Action::operator<` (declared header line 174,
body in the missing `tsswitchCore.cpp`).  Per the spec, equality and set
membership are by `(type, index)` only; the flag is excluded from identity.
So the order compares the enum value, then the index, and ignores the flag. -/
def Action.lt (a b : Action) : Bool :=
  if a.type.toNat = b.type.toNat then decide (a.index < b.index)
  else decide (a.type.toNat < b.type.toNat)

/-- Identity of two actions as elements of a `std::set<Action>`: neither is
less than the other under `Action::operator<`. -/
def Action.sameKey (a b : Action) : Bool :=
  !(Action.lt a b) && !(Action.lt b a)

/-- Membership in the event set, with `std::set` equivalence (by key). -/
def hasEvent (es : List Action) (a : Action) : Bool :=
  es.any (fun e => Action.sameKey e a)

/-- `std::set::insert`: no effect when an element with the same key is
already present. -/
def insertEvent (es : List Action) (a : Action) : List Action :=
  if hasEvent es a then es else a :: es

/-- `std::set::erase`: remove the element(s) with the same key. -/
def eraseEvent (es : List Action) (a : Action) : List Action :=
  es.filter (fun e => !(Action.sameKey e a))

/-- Per-input state machine from the spec: NOT_STARTED → STARTING →
RUNNING → STOPPING → STOPPED. -/
inductive InputState where
  | NOT_STARTED
  | STARTING
  | RUNNING
  | STOPPING
  | STOPPED
deriving DecidableEq, Repr

/-- The coordinator state: the data members of `ts::tsswitch::Core` that
live under the global mutex (`tsswitchCore.h`, lines 186-190), plus the
per-input state machine of the spec and the reported exit status set by
`stop`.  The number of configured inputs is the length of `inputStates`
(the source's `_inputs.size()`). -/
structure Core where
  curPlugin : Nat
  curCycle : Nat
  terminate : Bool
  actions : List Action
  events : List Action
  inputStates : List InputState
  exitSuccess : Bool
deriving DecidableEq, Repr

/-- Number of configured inputs (`_inputs.size()`). -/
def Core.numInputs (s : Core) : Nat := s.inputStates.length

/-- State of input `i` (out-of-range reads as STOPPED, never exercised). -/
def Core.stateOf (s : Core) (i : Nat) : InputState :=
  s.inputStates.getD i InputState.STOPPED

/-- Replace the state of input `i`. -/
def Core.setState (s : Core) (i : Nat) (st : InputState) : Core :=
  { s with inputStates := s.inputStates.set i st }

/-- Whether input `i` is currently running. -/
def Core.isRunning (s : Core) (i : Nat) : Bool :=
  match s.stateOf i with
  | InputState.RUNNING => true
  | _ => false

/-- Whether input `i` is an active worker (launched and not yet stopped). -/
def Core.isActive (s : Core) (i : Nat) : Bool :=
  match s.stateOf i with
  | InputState.STARTING => true
  | InputState.RUNNING => true
  | _ => false

/-- Whether input `i` is still viable (could become or stay current):
anything not terminally stopped.  STOPPED is terminal for the run. -/
def Core.viable (s : Core) (i : Nat) : Bool :=
  match s.stateOf i with
  | InputState.STOPPED => false
  | _ => true

/-- Whether some input other than `i` is still viable. -/
def Core.otherViable (s : Core) (i : Nat) : Bool :=
  (List.range s.numInputs).any (fun j => decide (j ≠ i) && s.viable j)

/-- Whether an action type is a wait action, which stays at the queue head
until the matching event arrives. -/
def isWait : ActionType → Bool
  | ActionType.WAIT_STARTED => true
  | ActionType.WAIT_INPUT => true
  | ActionType.WAIT_STOPPED => true
  | _ => false

/-- Modelled from the spec: the effect of dispatching one immediate action.
`SET_CURRENT` commits the new current index; `START` and `STOP` command the
worker (tracked in the per-input state machine); `NOTIF_CURRENT` is an
external notification with no coordinator-state effect; `NONE` is a no-op. -/
def applyImmediate (s : Core) (a : Action) : Core :=
  match a.type with
  | ActionType.SET_CURRENT => { s with curPlugin := a.index }
  | ActionType.START => s.setState a.index InputState.STARTING
  | ActionType.STOP => s.setState a.index InputState.STOPPING
  | _ => s

/-- Modelled from the spec: the executor loop of `Core::execute` over the
action queue.  Immediate actions execute and pop at once; a wait action at
the head completes immediately when its event is already in the event set
(consuming the event), and otherwise blocks, leaving the queue as is. -/
def execGo : List Action → Core → Core
  | [], s => { s with actions := [] }
  | a :: rest, s =>
    if isWait a.type then
      if hasEvent s.events a then
        execGo rest { s with events := eraseEvent s.events a }
      else
        { s with actions := a :: rest }
    else
      execGo rest (applyImmediate s a)

/-- Modelled from the spec: `Core::execute(event)` (declared header line
203).  A real event (type ≠ NONE) is first recorded in the event set, so a
wait enqueued later is not blocked forever; then the queue is executed
until an unsatisfied wait reaches the head. -/
def Core.execute (s : Core) (ev : Action) : Core :=
  let s1 := if ev.type = ActionType.NONE then s
            else { s with events := insertEvent s.events ev }
  execGo s1.actions s1

/-- Modelled from the spec: `Core::stop(success)` is idempotent; it sets
the terminate flag, wakes all waiters (external effect) and enqueues stop
actions for every active worker.  `success` only affects the reported exit
status. -/
def Core.stop (s : Core) (success : Bool) : Core :=
  if s.terminate then s
  else
    { s with
      terminate := true
      exitSuccess := success
      actions := s.actions ++
        ((List.range s.numInputs).filter (fun j => s.isActive j)).map
          (fun j => ⟨ActionType.STOP, j, false⟩) }

/-- Modelled from the spec: the switch protocol enqueued to change the
current input to `i`: start the target first when it is not running, then
notify the old and the new current, commit, and wait for data. -/
def switchProtocol (s : Core) (i : Nat) : List Action :=
  (if s.isRunning i then []
   else [⟨ActionType.START, i, false⟩, ⟨ActionType.WAIT_STARTED, i, false⟩]) ++
  [⟨ActionType.NOTIF_CURRENT, s.curPlugin, false⟩,
   ⟨ActionType.NOTIF_CURRENT, i, true⟩,
   ⟨ActionType.SET_CURRENT, i, false⟩,
   ⟨ActionType.WAIT_INPUT, i, false⟩]

/-- Modelled from the spec: `Core::setInputLocked(index)` (declared header
line 196): enqueue the switch protocol and run the executor. -/
def Core.setInputLocked (s : Core) (i : Nat) : Core :=
  Core.execute { s with actions := s.actions ++ switchProtocol s i } Action.dfl

/-- Modelled from the spec: `Core::setInput(pluginIndex)`.  An out-of-range
index is rejected synchronously with no state change (only an error log,
an external effect). -/
def Core.setInput (s : Core) (i : Nat) : Core :=
  if i < s.numInputs then s.setInputLocked i else s

/-- Modelled from the spec: `Core::nextInput()` targets
`(curPlugin + 1) % numInputs`, incrementing the cycle counter on
wraparound. -/
def Core.nextInput (s : Core) : Core :=
  if (s.curPlugin + 1) % s.numInputs = 0 then
    Core.setInput { s with curCycle := s.curCycle + 1 } ((s.curPlugin + 1) % s.numInputs)
  else
    Core.setInput s ((s.curPlugin + 1) % s.numInputs)

/-- Modelled from the spec: `Core::previousInput()` targets
`(curPlugin - 1 + numInputs) % numInputs` (written without Nat
truncation); the cycle counter is untouched. -/
def Core.previousInput (s : Core) : Core :=
  s.setInput ((s.curPlugin + s.numInputs - 1) % s.numInputs)

/-- Modelled from the spec: `Core::inputStarted(i, success)` clears the
WAIT_STARTED event of input `i` and advances the queue; it returns false
exactly when terminating.  When `success` is false and no other viable
input exists while not already terminating, the failure surfaces as
`stop(false)` with no retry, and the pending switch is abandoned. -/
def Core.inputStarted (s : Core) (i : Nat) (success : Bool) : Core × Bool :=
  let s2 :=
    if success then
      Core.execute (s.setState i InputState.RUNNING)
        ⟨ActionType.WAIT_STARTED, i, success⟩
    else
      let s1 := s.setState i InputState.STOPPED
      if !s1.terminate && !(s1.otherViable i) then Core.stop s1 false
      else Core.execute s1 ⟨ActionType.WAIT_STARTED, i, success⟩
  (s2, !s2.terminate)

/-- Modelled from the spec: `Core::inputReceived(i)` clears the WAIT_INPUT
event of input `i`, advances the queue and wakes the output side (external
effect); it returns false exactly when terminating. -/
def Core.inputReceived (s : Core) (i : Nat) : Core × Bool :=
  let s1 := Core.execute s ⟨ActionType.WAIT_INPUT, i, false⟩
  (s1, !s1.terminate)

/-- Modelled from the spec: `Core::inputStopped(i, success)` clears the
WAIT_STOPPED event of input `i` and advances the queue; it returns false
exactly when terminating. -/
def Core.inputStopped (s : Core) (i : Nat) (success : Bool) : Core × Bool :=
  let s1 := Core.execute (s.setState i InputState.STOPPED)
    ⟨ActionType.WAIT_STOPPED, i, success⟩
  (s1, !s1.terminate)

/-- Result of `getOutputArea`: success flag, returned plugin index and
packet count.  The returned buffer address stays with the input worker and
is not part of the coordinator state. -/
structure OutputArea where
  ok : Bool
  index : Nat
  count : Nat
deriving DecidableEq, Repr

/-- Modelled from the spec: `Core::getOutputArea` blocks until the current
input has packets ready or termination begins; we evaluate the call at the
moment the wait releases, with `avail` the number of packets the current
input exposes then.  The call fails, with a zero count, when terminating;
otherwise it returns the current index and the available window.  The
coordinator state is not modified. -/
def Core.getOutputArea (s : Core) (avail : Nat) : OutputArea :=
  if s.terminate then ⟨false, s.curPlugin, 0⟩
  else ⟨true, s.curPlugin, avail⟩

/-- Modelled from the spec: `Core::outputSent(i, count)` releases the sent
portion of input `i`'s buffer (owned by the worker, outside the
coordinator state) and returns false exactly when terminating. -/
def Core.outputSent (s : Core) (i : Nat) (count : Nat) : Core × Bool :=
  (s, !s.terminate)

/-- Modelled from the spec: `Core::start()` launches all workers
(establishing the per-input STARTING states) and establishes the initial
current input per policy (explicit index); an external launch failure
triggers `stop(false)`. -/
def Core.start (s : Core) (launchOk : Bool) (initIndex : Nat) : Core × Bool :=
  if launchOk then
    ({ s with
       curPlugin := initIndex
       inputStates := s.inputStates.map (fun _ => InputState.STARTING) }, true)
  else
    (Core.stop s false, false)

/-- One coordinator operation together with its external arguments. -/
inductive Cmd where
  | stop (ok : Bool)
  | setInput (i : Nat)
  | nextInput
  | previousInput
  | inputStarted (i : Nat) (ok : Bool)
  | inputReceived (i : Nat)
  | inputStopped (i : Nat) (ok : Bool)
  | getOutputArea (avail : Nat)
  | outputSent (i : Nat) (count : Nat)
  | start (launchOk : Bool) (initIndex : Nat)
deriving DecidableEq, Repr

/-- The state transformation of one coordinator operation. -/
def applyCmd (s : Core) : Cmd → Core
  | Cmd.stop ok => s.stop ok
  | Cmd.setInput i => s.setInput i
  | Cmd.nextInput => s.nextInput
  | Cmd.previousInput => s.previousInput
  | Cmd.inputStarted i ok => (s.inputStarted i ok).1
  | Cmd.inputReceived i => (s.inputReceived i).1
  | Cmd.inputStopped i ok => (s.inputStopped i ok).1
  | Cmd.getOutputArea _ => s
  | Cmd.outputSent i count => (s.outputSent i count).1
  | Cmd.start launchOk initIndex => (s.start launchOk initIndex).1

/-- Transition by an arbitrary coordinator operation. -/
def Step (s t : Core) : Prop := ∃ c, t = applyCmd s c

/-- The external worker contract of the spec: an input reports
`inputStarted` only while it is STARTING, and `start()` launches a freshly
built coordinator whose inputs have not been touched yet. -/
def allowed (s : Core) : Cmd → Prop
  | Cmd.inputStarted i _ => s.stateOf i = InputState.STARTING
  | Cmd.start _ _ => s.inputStates.all (fun st => st = InputState.NOT_STARTED) = true
  | _ => True

/-- Transition by a coordinator operation respecting the worker contract. -/
def GStep (s t : Core) : Prop := ∃ c, allowed s c ∧ t = applyCmd s c

/-- Steady state of the spec's cycle scenario: three running inputs A,B,C
with A current, an empty action queue, each input's data-ready event
recorded, and cycle counter `k`. -/
def cycleDemo (k : Nat) : Core :=
  ⟨0, k, false, [],
   [⟨ActionType.WAIT_INPUT, 0, false⟩, ⟨ActionType.WAIT_INPUT, 1, false⟩,
    ⟨ActionType.WAIT_INPUT, 2, false⟩],
   [InputState.RUNNING, InputState.RUNNING, InputState.RUNNING], true⟩

/-- Scenario of the spec's failure-handling property: a two-input
coordinator, input 0 already terminally stopped, a pending switch to
input 1 blocked on its WAIT_STARTED action while input 1 is starting. -/
def failDemo : Core :=
  ⟨0, 0, false, [⟨ActionType.WAIT_STARTED, 1, false⟩], [],
   [InputState.STOPPED, InputState.STARTING], true⟩

/-- Invariant after a fatal start failure of input `i`: termination is in
progress, `i` is not current and terminally stopped, and the queue head is
a `WAIT_STARTED i` action whose event can no longer arrive, so the pending
switch to `i` can never commit. -/
def NeverCurrent (i : Nat) (s : Core) : Prop :=
  s.terminate = true ∧ s.curPlugin ≠ i ∧ i < s.numInputs ∧
  s.stateOf i = InputState.STOPPED ∧
  (∃ f rest, s.actions = Action.mk ActionType.WAIT_STARTED i f :: rest) ∧
  hasEvent s.events ⟨ActionType.WAIT_STARTED, i, false⟩ = false

lemma bnot_eq_false_iff (b : Bool) : (!b) = false ↔ b = true := by
  cases b <;> simp

lemma inputStarted_snd (s : Core) (i : Nat) (ok : Bool) :
    (s.inputStarted i ok).2 = !(s.inputStarted i ok).1.terminate := rfl

lemma inputReceived_snd (s : Core) (i : Nat) :
    (s.inputReceived i).2 = !(s.inputReceived i).1.terminate := rfl

lemma inputStopped_snd (s : Core) (i : Nat) (ok : Bool) :
    (s.inputStopped i ok).2 = !(s.inputStopped i ok).1.terminate := rfl

lemma getOutputArea_ok (s : Core) (avail : Nat) :
    (s.getOutputArea avail).ok = !s.terminate := by
  unfold Core.getOutputArea
  split <;> simp_all

lemma setState_terminate (s : Core) (i : Nat) (st : InputState) :
    (s.setState i st).terminate = s.terminate := rfl

lemma setState_curCycle (s : Core) (i : Nat) (st : InputState) :
    (s.setState i st).curCycle = s.curCycle := rfl

lemma applyImmediate_terminate (s : Core) (a : Action) :
    (applyImmediate s a).terminate = s.terminate := by
  unfold applyImmediate
  cases a.type <;> rfl

lemma applyImmediate_curCycle (s : Core) (a : Action) :
    (applyImmediate s a).curCycle = s.curCycle := by
  unfold applyImmediate
  cases a.type <;> rfl

lemma execGo_terminate (q : List Action) (s : Core) :
    (execGo q s).terminate = s.terminate := by
  induction q generalizing s with
  | nil => rfl
  | cons a rest ih =>
    rw [execGo]
    split
    · split
      · rw [ih]
      · rfl
    · rw [ih, applyImmediate_terminate]

lemma execGo_curCycle (q : List Action) (s : Core) :
    (execGo q s).curCycle = s.curCycle := by
  induction q generalizing s with
  | nil => rfl
  | cons a rest ih =>
    rw [execGo]
    split
    · split
      · rw [ih]
      · rfl
    · rw [ih, applyImmediate_curCycle]

lemma execute_terminate (s : Core) (ev : Action) :
    (s.execute ev).terminate = s.terminate := by
  unfold Core.execute
  by_cases h : ev.type = ActionType.NONE <;> simp [h, execGo_terminate]

lemma execute_curCycle (s : Core) (ev : Action) :
    (s.execute ev).curCycle = s.curCycle := by
  unfold Core.execute
  by_cases h : ev.type = ActionType.NONE <;> simp [h, execGo_curCycle]

lemma stop_terminate (s : Core) (ok : Bool) : (s.stop ok).terminate = true := by
  unfold Core.stop
  split
  · assumption
  · rfl

lemma stop_curCycle (s : Core) (ok : Bool) : (s.stop ok).curCycle = s.curCycle := by
  unfold Core.stop
  split <;> rfl

lemma setInputLocked_terminate (s : Core) (i : Nat) :
    (s.setInputLocked i).terminate = s.terminate := by
  unfold Core.setInputLocked
  rw [execute_terminate]

lemma setInputLocked_curCycle (s : Core) (i : Nat) :
    (s.setInputLocked i).curCycle = s.curCycle := by
  unfold Core.setInputLocked
  rw [execute_curCycle]

lemma setInput_terminate (s : Core) (i : Nat) :
    (s.setInput i).terminate = s.terminate := by
  unfold Core.setInput
  split
  · rw [setInputLocked_terminate]
  · rfl

lemma setInput_curCycle (s : Core) (i : Nat) :
    (s.setInput i).curCycle = s.curCycle := by
  unfold Core.setInput
  split
  · rw [setInputLocked_curCycle]
  · rfl

lemma nextInput_terminate (s : Core) :
    (s.nextInput).terminate = s.terminate := by
  unfold Core.nextInput
  by_cases h : (s.curPlugin + 1) % s.numInputs = 0 <;> simp [h, setInput_terminate]

lemma nextInput_curCycle (s : Core) :
    s.curCycle ≤ (s.nextInput).curCycle := by
  unfold Core.nextInput
  by_cases h : (s.curPlugin + 1) % s.numInputs = 0 <;> simp [h, setInput_curCycle]

lemma previousInput_terminate (s : Core) :
    (s.previousInput).terminate = s.terminate := by
  unfold Core.previousInput
  rw [setInput_terminate]

lemma previousInput_curCycle (s : Core) :
    (s.previousInput).curCycle = s.curCycle := by
  unfold Core.previousInput
  rw [setInput_curCycle]

lemma inputStarted_terminate_mono (s : Core) (i : Nat) (ok : Bool)
    (h : s.terminate = true) : (s.inputStarted i ok).1.terminate = true := by
  unfold Core.inputStarted
  dsimp only
  split
  · rw [execute_terminate]; exact h
  · split
    · exact stop_terminate _ _
    · rw [execute_terminate]; exact h

lemma inputStarted_curCycle (s : Core) (i : Nat) (ok : Bool) :
    (s.inputStarted i ok).1.curCycle = s.curCycle := by
  unfold Core.inputStarted
  dsimp only
  split
  · rw [execute_curCycle]; rfl
  · split
    · rw [stop_curCycle]; rfl
    · rw [execute_curCycle]; rfl

lemma start_terminate_mono (s : Core) (ok : Bool) (idx : Nat)
    (h : s.terminate = true) : (s.start ok idx).1.terminate = true := by
  unfold Core.start
  split
  · exact h
  · exact stop_terminate _ _

lemma start_curCycle (s : Core) (ok : Bool) (idx : Nat) :
    (s.start ok idx).1.curCycle = s.curCycle := by
  unfold Core.start
  split
  · rfl
  · exact stop_curCycle _ _

lemma applyCmd_terminate_mono (s : Core) (c : Cmd) (h : s.terminate = true) :
    (applyCmd s c).terminate = true := by
  cases c with
  | stop ok => exact stop_terminate _ _
  | setInput i => rw [applyCmd, setInput_terminate]; exact h
  | nextInput => rw [applyCmd, nextInput_terminate]; exact h
  | previousInput => rw [applyCmd, previousInput_terminate]; exact h
  | inputStarted i ok => exact inputStarted_terminate_mono _ _ _ h
  | inputReceived i => rw [applyCmd]; unfold Core.inputReceived; rw [execute_terminate]; exact h
  | inputStopped i ok =>
      rw [applyCmd]; unfold Core.inputStopped; rw [execute_terminate]; exact h
  | getOutputArea avail => exact h
  | outputSent i count => exact h
  | start ok idx => exact start_terminate_mono _ _ _ h

lemma applyCmd_curCycle_mono (s : Core) (c : Cmd) :
    s.curCycle ≤ (applyCmd s c).curCycle := by
  cases c with
  | stop ok => rw [applyCmd, stop_curCycle]
  | setInput i => rw [applyCmd, setInput_curCycle]
  | nextInput => exact nextInput_curCycle _
  | previousInput => rw [applyCmd, previousInput_curCycle]
  | inputStarted i ok => rw [applyCmd, inputStarted_curCycle]
  | inputReceived i => rw [applyCmd]; unfold Core.inputReceived; rw [execute_curCycle]
  | inputStopped i ok =>
      rw [applyCmd]; unfold Core.inputStopped; rw [execute_curCycle, setState_curCycle]
  | getOutputArea avail => exact le_refl _
  | outputSent i count => exact le_refl _
  | start ok idx => rw [applyCmd, start_curCycle]

/-- C6: across any sequence of coordinator operations, the terminate flag
only transitions from false to true (never resets) and the cycle counter
never decreases. -/
theorem C6_terminate_cycle_monotone (s t : Core)
    (h : Relation.ReflTransGen Step s t) :
    (s.terminate = true → t.terminate = true) ∧ s.curCycle ≤ t.curCycle := by
  induction h with
  | refl => exact ⟨fun h0 => h0, le_refl _⟩
  | tail hst hstep ih =>
    obtain ⟨c, rfl⟩ := hstep
    exact ⟨fun h0 => applyCmd_terminate_mono _ _ (ih.1 h0),
      le_trans ih.2 (applyCmd_curCycle_mono _ _)⟩

/-- C6 witness: a single `stop(true)` step from a live coordinator. -/
theorem C6_terminate_cycle_monotone_witness :
    ((⟨0, 0, false, [], [], [InputState.RUNNING], true⟩ : Core).terminate = true →
      (applyCmd ⟨0, 0, false, [], [], [InputState.RUNNING], true⟩ (Cmd.stop true)).terminate = true) ∧
    (⟨0, 0, false, [], [], [InputState.RUNNING], true⟩ : Core).curCycle ≤
      (applyCmd ⟨0, 0, false, [], [], [InputState.RUNNING], true⟩ (Cmd.stop true)).curCycle :=
  C6_terminate_cycle_monotone _ _ (Relation.ReflTransGen.single ⟨Cmd.stop true, rfl⟩)

/-- C10: the flag-changing copy constructor keeps `type` and `index` and
sets only `flag`; the default-constructed Action is `(NONE, 0, false)`. -/
theorem C10_action_constructors (a : Action) (f : Bool) :
    (a.copyWithFlag f).type = a.type ∧
    (a.copyWithFlag f).index = a.index ∧
    (a.copyWithFlag f).flag = f ∧
    Action.dfl.type = ActionType.NONE ∧
    Action.dfl.index = 0 ∧
    Action.dfl.flag = false :=
  ⟨rfl, rfl, rfl, rfl, rfl, rfl⟩

/-- C7: action identity is the pair `(type, index)` only: two actions with
equal type and index are unordered under `operator<` whatever their flags,
and event-set membership does not depend on the flag payload. -/
theorem C7_action_identity (a b : Action) (es : List Action) (f : Bool)
    (ht : a.type = b.type) (hi : a.index = b.index) :
    Action.lt a b = false ∧ Action.lt b a = false ∧
    hasEvent es (Action.mk a.type a.index f) = hasEvent es b := by
  refine ⟨?_, ?_, ?_⟩
  · simp [Action.lt, ht, hi]
  · simp [Action.lt, ht, hi]
  · rw [ht, hi]; rfl

/-- C7 witness: concrete actions differing only in the flag. -/
theorem C7_action_identity_witness :
    Action.lt ⟨ActionType.WAIT_INPUT, 2, true⟩ ⟨ActionType.WAIT_INPUT, 2, false⟩ = false ∧
    Action.lt ⟨ActionType.WAIT_INPUT, 2, false⟩ ⟨ActionType.WAIT_INPUT, 2, true⟩ = false ∧
    hasEvent [⟨ActionType.WAIT_INPUT, 2, false⟩] ⟨ActionType.WAIT_INPUT, 2, true⟩ =
      hasEvent [⟨ActionType.WAIT_INPUT, 2, false⟩] ⟨ActionType.WAIT_INPUT, 2, false⟩ :=
  C7_action_identity ⟨ActionType.WAIT_INPUT, 2, true⟩ ⟨ActionType.WAIT_INPUT, 2, false⟩
    [⟨ActionType.WAIT_INPUT, 2, false⟩] true rfl rfl

/-- C4: an out-of-range index is rejected synchronously by `setInput`: the
whole coordinator state — current index, cycle counter, terminate flag,
action queue, event set — is unchanged and nothing is enqueued. -/
theorem C4_setInput_out_of_range (s : Core) (i : Nat) (h : s.numInputs ≤ i) :
    s.setInput i = s ∧
    (s.setInput i).curPlugin = s.curPlugin ∧
    (s.setInput i).curCycle = s.curCycle ∧
    (s.setInput i).terminate = s.terminate ∧
    (s.setInput i).actions = s.actions ∧
    (s.setInput i).events = s.events := by
  have he : s.setInput i = s := by
    unfold Core.setInput
    rw [if_neg (Nat.not_lt.mpr h)]
  exact ⟨he, by rw [he], by rw [he], by rw [he], by rw [he], by rw [he]⟩

/-- C4 witness: a two-input coordinator rejects index 5. -/
theorem C4_setInput_out_of_range_witness :
    Core.setInput ⟨0, 0, false, [], [], [InputState.RUNNING, InputState.RUNNING], true⟩ 5 =
      ⟨0, 0, false, [], [], [InputState.RUNNING, InputState.RUNNING], true⟩ :=
  (C4_setInput_out_of_range
    ⟨0, 0, false, [], [], [InputState.RUNNING, InputState.RUNNING], true⟩ 5
    (by decide)).1

/-- C5: `stop(true)` is idempotent: a second call leaves the state produced
by the first call exactly as it is. -/
theorem C5_stop_idempotent (s : Core) :
    Core.stop (Core.stop s true) true = Core.stop s true := by
  cases h : s.terminate <;> simp [Core.stop, h]

/-- C2: every callback-style operation returns false exactly when the
terminate flag is set at the time the call is processed, and true
otherwise. -/
theorem C2_callbacks_fail_iff_terminating (s : Core) (i : Nat) (ok : Bool)
    (cnt avail : Nat) :
    ((s.inputStarted i ok).2 = false ↔ (s.inputStarted i ok).1.terminate = true) ∧
    ((s.inputReceived i).2 = false ↔ (s.inputReceived i).1.terminate = true) ∧
    ((s.inputStopped i ok).2 = false ↔ (s.inputStopped i ok).1.terminate = true) ∧
    ((s.getOutputArea avail).ok = false ↔ s.terminate = true) ∧
    ((s.outputSent i cnt).2 = false ↔ (s.outputSent i cnt).1.terminate = true) := by
  refine ⟨?_, ?_, ?_, ?_, ?_⟩
  · rw [inputStarted_snd]; exact bnot_eq_false_iff _
  · rw [inputReceived_snd]; exact bnot_eq_false_iff _
  · rw [inputStopped_snd]; exact bnot_eq_false_iff _
  · rw [getOutputArea_ok]; exact bnot_eq_false_iff _
  · exact bnot_eq_false_iff _

/-- C1: a successful `getOutputArea` returns a non-zero count; a zero
count, or failure, happens only when the terminate flag is true.  The
hypothesis is the release condition of the internal blocking wait: the
call returns only once termination began or the current input has data. -/
theorem C1_getOutputArea_count (s : Core) (avail : Nat)
    (hwake : s.terminate = true ∨ 0 < avail) :
    ((s.getOutputArea avail).ok = true → (s.getOutputArea avail).count ≠ 0) ∧
    ((s.getOutputArea avail).count = 0 → s.terminate = true) ∧
    ((s.getOutputArea avail).ok = false → s.terminate = true) := by
  cases h : s.terminate
  · rcases hwake with hw | hw
    · exact absurd hw (by simp [h])
    · refine ⟨?_, ?_, ?_⟩ <;> simp [Core.getOutputArea, h] <;> omega
  · refine ⟨?_, ?_, ?_⟩ <;> simp [Core.getOutputArea, h]

/-- C1 witness: a live coordinator with 3 packets available succeeds with
a non-zero count. -/
theorem C1_getOutputArea_count_witness :
    ((Core.getOutputArea ⟨0, 0, false, [], [], [InputState.RUNNING], true⟩ 3).ok = true →
      (Core.getOutputArea ⟨0, 0, false, [], [], [InputState.RUNNING], true⟩ 3).count ≠ 0) ∧
    ((Core.getOutputArea ⟨0, 0, false, [], [], [InputState.RUNNING], true⟩ 3).count = 0 →
      (⟨0, 0, false, [], [], [InputState.RUNNING], true⟩ : Core).terminate = true) ∧
    ((Core.getOutputArea ⟨0, 0, false, [], [], [InputState.RUNNING], true⟩ 3).ok = false →
      (⟨0, 0, false, [], [], [InputState.RUNNING], true⟩ : Core).terminate = true) :=
  C1_getOutputArea_count ⟨0, 0, false, [], [], [InputState.RUNNING], true⟩ 3
    (Or.inr (by decide))

lemma setInputLocked_ready (s : Core) (i : Nat)
    (hq : s.actions = []) (hrun : s.isRunning i = true)
    (hev : hasEvent s.events ⟨ActionType.WAIT_INPUT, i, false⟩ = true) :
    (s.setInputLocked i).curPlugin = i ∧
    (s.setInputLocked i).curCycle = s.curCycle := by
  have hprot : switchProtocol s i =
      [⟨ActionType.NOTIF_CURRENT, s.curPlugin, false⟩,
       ⟨ActionType.NOTIF_CURRENT, i, true⟩,
       ⟨ActionType.SET_CURRENT, i, false⟩,
       ⟨ActionType.WAIT_INPUT, i, false⟩] := by
    simp [switchProtocol, hrun]
  unfold Core.setInputLocked Core.execute
  rw [hprot, hq]
  simp [Action.dfl, execGo, isWait, applyImmediate, hev]

lemma setInput_ready (s : Core) (i : Nat)
    (hq : s.actions = []) (hrun : s.isRunning i = true)
    (hev : hasEvent s.events ⟨ActionType.WAIT_INPUT, i, false⟩ = true)
    (hlt : i < s.numInputs) :
    (s.setInput i).curPlugin = i ∧ (s.setInput i).curCycle = s.curCycle := by
  unfold Core.setInput
  rw [if_pos hlt]
  exact setInputLocked_ready s i hq hrun hev

/-- C3: `nextInput` targets `(c+1) mod N` and `previousInput` targets
`(c-1+N) mod N`; the cycle counter is incremented exactly when `nextInput`
wraps around from `N-1` to `0`.  With three running inputs A,B,C and A
current, three successive `nextInput` calls drive the current input
through B, C, back to A, incrementing the cycle counter exactly once, on
the third call. -/
theorem C3_switch_targets_cycle :
    (∀ s : Core,
      0 < s.numInputs → s.curPlugin < s.numInputs → s.actions = [] →
      (∀ j, j < s.numInputs → s.isRunning j = true) →
      (∀ j, j < s.numInputs → hasEvent s.events ⟨ActionType.WAIT_INPUT, j, false⟩ = true) →
      ((s.nextInput).curPlugin = (s.curPlugin + 1) % s.numInputs ∧
       (s.nextInput).curCycle =
         (if s.curPlugin + 1 = s.numInputs then s.curCycle + 1 else s.curCycle) ∧
       (s.previousInput).curPlugin = (s.curPlugin + s.numInputs - 1) % s.numInputs ∧
       (s.previousInput).curCycle = s.curCycle)) ∧
    (∀ k : Nat,
      ((cycleDemo k).nextInput).curPlugin = 1 ∧
      ((cycleDemo k).nextInput.nextInput).curPlugin = 2 ∧
      ((cycleDemo k).nextInput.nextInput.nextInput).curPlugin = 0 ∧
      ((cycleDemo k).nextInput).curCycle = k ∧
      ((cycleDemo k).nextInput.nextInput).curCycle = k ∧
      ((cycleDemo k).nextInput.nextInput.nextInput).curCycle = k + 1) := by
  constructor
  · intro s h0 hc hq hrun hev
    have hmod : ((s.curPlugin + 1) % s.numInputs = 0) ↔ (s.curPlugin + 1 = s.numInputs) := by
      constructor
      · intro h
        by_contra hne
        have hlt : s.curPlugin + 1 < s.numInputs := by omega
        rw [Nat.mod_eq_of_lt hlt] at h
        omega
      · intro h
        rw [h, Nat.mod_self]
    have hNn : (s.curPlugin + 1) % s.numInputs < s.numInputs := Nat.mod_lt _ h0
    have hNp : (s.curPlugin + s.numInputs - 1) % s.numInputs < s.numInputs := Nat.mod_lt _ h0
    have hprev := setInput_ready s ((s.curPlugin + s.numInputs - 1) % s.numInputs)
      hq (hrun _ hNp) (hev _ hNp) hNp
    by_cases hb : (s.curPlugin + 1) % s.numInputs = 0
    · have hnxt := setInput_ready { s with curCycle := s.curCycle + 1 }
        ((s.curPlugin + 1) % s.numInputs) hq (hrun _ hNn) (hev _ hNn) hNn
      have he : s.nextInput =
          Core.setInput { s with curCycle := s.curCycle + 1 } ((s.curPlugin + 1) % s.numInputs) := by
        unfold Core.nextInput
        rw [if_pos hb]
      rw [he]
      refine ⟨hnxt.1, ?_, hprev.1, hprev.2⟩
      rw [hnxt.2, if_pos (hmod.mp hb)]
    · have hnxt := setInput_ready s ((s.curPlugin + 1) % s.numInputs)
        hq (hrun _ hNn) (hev _ hNn) hNn
      have he : s.nextInput = Core.setInput s ((s.curPlugin + 1) % s.numInputs) := by
        unfold Core.nextInput
        rw [if_neg hb]
      rw [he]
      refine ⟨hnxt.1, ?_, hprev.1, hprev.2⟩
      rw [hnxt.2, if_neg (fun hh => hb (hmod.mpr hh))]
  · intro k
    have h1 : (cycleDemo k).nextInput =
        ⟨1, k, false, [],
         [⟨ActionType.WAIT_INPUT, 0, false⟩, ⟨ActionType.WAIT_INPUT, 2, false⟩],
         [InputState.RUNNING, InputState.RUNNING, InputState.RUNNING], true⟩ := by rfl
    have h2 : (⟨1, k, false, [],
         [⟨ActionType.WAIT_INPUT, 0, false⟩, ⟨ActionType.WAIT_INPUT, 2, false⟩],
         [InputState.RUNNING, InputState.RUNNING, InputState.RUNNING], true⟩ : Core).nextInput =
        ⟨2, k, false, [], [⟨ActionType.WAIT_INPUT, 0, false⟩],
         [InputState.RUNNING, InputState.RUNNING, InputState.RUNNING], true⟩ := by rfl
    have h3 : (⟨2, k, false, [], [⟨ActionType.WAIT_INPUT, 0, false⟩],
         [InputState.RUNNING, InputState.RUNNING, InputState.RUNNING], true⟩ : Core).nextInput =
        ⟨0, k + 1, false, [], [],
         [InputState.RUNNING, InputState.RUNNING, InputState.RUNNING], true⟩ := by
      simp [Core.nextInput, Core.setInput, Core.setInputLocked, Core.execute, switchProtocol,
        Core.isRunning, Core.stateOf, execGo, isWait, applyImmediate, hasEvent, Action.sameKey,
        Action.lt, ActionType.toNat, eraseEvent, insertEvent, Action.dfl, Core.numInputs]
    rw [h1, h2, h3]
    exact ⟨rfl, rfl, rfl, rfl, rfl, rfl⟩

/-- C3 witness: the scenario state with cycle counter 5: the first
`nextInput` targets input 1 without touching the cycle counter. -/
theorem C3_switch_targets_cycle_witness :
    ((cycleDemo 5).nextInput).curPlugin = ((cycleDemo 5).curPlugin + 1) % (cycleDemo 5).numInputs ∧
    ((cycleDemo 5).nextInput).curCycle =
      (if (cycleDemo 5).curPlugin + 1 = (cycleDemo 5).numInputs
       then (cycleDemo 5).curCycle + 1 else (cycleDemo 5).curCycle) ∧
    ((cycleDemo 5).previousInput).curPlugin =
      ((cycleDemo 5).curPlugin + (cycleDemo 5).numInputs - 1) % (cycleDemo 5).numInputs ∧
    ((cycleDemo 5).previousInput).curCycle = (cycleDemo 5).curCycle :=
  C3_switch_targets_cycle.1 (cycleDemo 5) (by decide) (by decide) rfl
    (by decide) (by decide)

/-- C9: when a wait action reaches the head of the queue while its matching
event is already recorded, the executor consumes the event, completes the
action and continues with the rest of the queue instead of blocking. -/
theorem C9_event_before_wait (s : Core) (a : Action) (rest : List Action)
    (hq : s.actions = a :: rest) (hw : isWait a.type = true)
    (he : hasEvent s.events a = true) :
    Core.execute s Action.dfl = execGo rest { s with events := eraseEvent s.events a } := by
  simp [Core.execute, Action.dfl, hq, execGo, hw, he]

/-- C9 witness: a queue headed by WAIT_INPUT 1 whose event already fired
(with a different flag) completes immediately. -/
theorem C9_event_before_wait_witness :
    Core.execute
        ⟨0, 0, false, [⟨ActionType.WAIT_INPUT, 1, false⟩],
         [⟨ActionType.WAIT_INPUT, 1, true⟩], [InputState.RUNNING, InputState.RUNNING], true⟩
        Action.dfl =
      execGo []
        { (⟨0, 0, false, [⟨ActionType.WAIT_INPUT, 1, false⟩],
           [⟨ActionType.WAIT_INPUT, 1, true⟩],
           [InputState.RUNNING, InputState.RUNNING], true⟩ : Core) with
          events := eraseEvent [⟨ActionType.WAIT_INPUT, 1, true⟩]
            ⟨ActionType.WAIT_INPUT, 1, false⟩ } :=
  C9_event_before_wait
    ⟨0, 0, false, [⟨ActionType.WAIT_INPUT, 1, false⟩],
     [⟨ActionType.WAIT_INPUT, 1, true⟩], [InputState.RUNNING, InputState.RUNNING], true⟩
    ⟨ActionType.WAIT_INPUT, 1, false⟩ [] rfl (by decide) (by decide)

lemma toNat_inj (x y : ActionType) : x.toNat = y.toNat ↔ x = y := by
  cases x <;> cases y <;> decide

lemma sameKey_iff (a b : Action) :
    Action.sameKey a b = true ↔ (a.type = b.type ∧ a.index = b.index) := by
  unfold Action.sameKey Action.lt
  by_cases ht : a.type.toNat = b.type.toNat
  · rw [if_pos ht, if_pos ht.symm]
    have htt := (toNat_inj _ _).mp ht
    simp [htt]
    omega
  · rw [if_neg ht, if_neg (fun hh => ht hh.symm)]
    have htt : ¬a.type = b.type := fun hh => ht (by rw [hh])
    simp [htt]
    omega

lemma sameKey_false_of_ne (a b : Action)
    (h : ¬(a.type = b.type ∧ a.index = b.index)) : Action.sameKey a b = false := by
  cases hh : Action.sameKey a b
  · rfl
  · exact absurd ((sameKey_iff a b).mp hh) h

lemma hasEvent_insert_false (es : List Action) (ev a : Action)
    (h1 : Action.sameKey ev a = false) (h2 : hasEvent es a = false) :
    hasEvent (insertEvent es ev) a = false := by
  unfold insertEvent
  split
  · exact h2
  · unfold hasEvent at h2 ⊢
    simp [List.any_cons, h1, h2]

lemma execGo_blocked (s : Core) (a : Action) (rest : List Action)
    (hw : isWait a.type = true) (hnev : hasEvent s.events a = false) :
    execGo (a :: rest) s = { s with actions := a :: rest } := by
  rw [execGo]
  simp [hw, hnev]

lemma execute_blocked (s : Core) (ev a : Action) (rest : List Action)
    (hq : s.actions = a :: rest) (hw : isWait a.type = true)
    (hty : ev.type ≠ ActionType.NONE)
    (hnev : hasEvent (insertEvent s.events ev) a = false) :
    s.execute ev = { s with events := insertEvent s.events ev, actions := a :: rest } := by
  unfold Core.execute
  rw [if_neg hty]
  dsimp only
  rw [hq, execGo_blocked _ _ _ hw hnev]

lemma execute_dfl_blocked (s : Core) (a : Action) (rest : List Action)
    (hq : s.actions = a :: rest) (hw : isWait a.type = true)
    (hnev : hasEvent s.events a = false) :
    s.execute Action.dfl = { s with actions := a :: rest } := by
  unfold Core.execute
  have hC : Action.dfl.type = ActionType.NONE := rfl
  rw [if_pos hC]
  dsimp only
  rw [hq, execGo_blocked _ _ _ hw hnev]

lemma setInputLocked_blocked (s : Core) (j : Nat) (a : Action) (rest : List Action)
    (hq : s.actions = a :: rest) (hw : isWait a.type = true)
    (hnev : hasEvent s.events a = false) :
    s.setInputLocked j = { s with actions := a :: (rest ++ switchProtocol s j) } := by
  unfold Core.setInputLocked
  rw [execute_dfl_blocked { s with actions := s.actions ++ switchProtocol s j } a
    (rest ++ switchProtocol s j) (by rw [hq]; rfl) hw hnev]

lemma stateOf_setState_ne (s : Core) (j : Nat) (st : InputState) (i : Nat)
    (h : j ≠ i) : (s.setState j st).stateOf i = s.stateOf i := by
  unfold Core.stateOf Core.setState
  simp [List.getD_eq_getElem?_getD, List.getElem?_set_ne h]

lemma stateOf_setState_self (s : Core) (j : Nat) (st : InputState)
    (h : j < s.numInputs) : (s.setState j st).stateOf j = st := by
  unfold Core.stateOf Core.setState
  rw [List.getD_eq_getElem?_getD, List.getElem?_set_self h]
  rfl

lemma numInputs_setState (s : Core) (j : Nat) (st : InputState) :
    (s.setState j st).numInputs = s.numInputs := by
  unfold Core.numInputs Core.setState
  simp

lemma stateOf_stopped_of_set (s : Core) (j i : Nat) (hi : i < s.numInputs)
    (hstop : s.stateOf i = InputState.STOPPED) :
    (s.setState j InputState.STOPPED).stateOf i = InputState.STOPPED := by
  by_cases hji : j = i
  · subst hji
    exact stateOf_setState_self s j _ hi
  · rw [stateOf_setState_ne s j _ i hji]
    exact hstop

lemma stateOf_all_not_started (s : Core) (i : Nat) (hi : i < s.numInputs)
    (hall : s.inputStates.all (fun st => st = InputState.NOT_STARTED) = true) :
    s.stateOf i = InputState.NOT_STARTED := by
  unfold Core.stateOf
  rw [List.getD_eq_getElem?_getD, List.getElem?_eq_getElem hi]
  have h2 := of_decide_eq_true (List.all_eq_true.mp hall _ (List.getElem_mem hi))
  simp [h2]

lemma stop_eq_of_live (s : Core) (ok : Bool) (h : s.terminate = false) :
    s.stop ok =
      { s with
        terminate := true
        exitSuccess := ok
        actions := s.actions ++
          ((List.range s.numInputs).filter (fun j => s.isActive j)).map
            (fun j => ⟨ActionType.STOP, j, false⟩) } := by
  unfold Core.stop
  rw [if_neg (by rw [h]; exact Bool.false_ne_true)]

lemma NeverCurrent_setInput (i : Nat) (s : Core) (j : Nat)
    (h : NeverCurrent i s) : NeverCurrent i (s.setInput j) := by
  obtain ⟨hterm, hcur, hiN, hstop, ⟨f, rest, hq⟩, hnoev⟩ := h
  have hw : isWait (Action.mk ActionType.WAIT_STARTED i f).type = true := rfl
  have hnoevf : hasEvent s.events (Action.mk ActionType.WAIT_STARTED i f) = false := hnoev
  by_cases hj : j < s.numInputs
  · have he : s.setInput j =
        { s with actions :=
            Action.mk ActionType.WAIT_STARTED i f :: (rest ++ switchProtocol s j) } := by
      unfold Core.setInput
      rw [if_pos hj]
      exact setInputLocked_blocked s j _ rest hq hw hnoevf
    rw [he]
    exact ⟨hterm, hcur, hiN, hstop, ⟨f, rest ++ switchProtocol s j, rfl⟩, hnoev⟩
  · have he : s.setInput j = s := by
      unfold Core.setInput
      rw [if_neg hj]
    rw [he]
    exact ⟨hterm, hcur, hiN, hstop, ⟨f, rest, hq⟩, hnoev⟩

lemma NeverCurrent_preserved (i : Nat) (s : Core) (c : Cmd)
    (hal : allowed s c) (h : NeverCurrent i s) : NeverCurrent i (applyCmd s c) := by
  obtain ⟨hterm, hcur, hiN, hstop, ⟨f, rest, hq⟩, hnoev⟩ := h
  have hw : isWait (Action.mk ActionType.WAIT_STARTED i f).type = true := rfl
  have hnoevf : hasEvent s.events (Action.mk ActionType.WAIT_STARTED i f) = false := hnoev
  cases c with
  | stop ok =>
    have he : applyCmd s (Cmd.stop ok) = s := by
      simp [applyCmd, Core.stop, hterm]
    rw [he]
    exact ⟨hterm, hcur, hiN, hstop, ⟨f, rest, hq⟩, hnoev⟩
  | setInput j =>
    exact NeverCurrent_setInput i s j ⟨hterm, hcur, hiN, hstop, ⟨f, rest, hq⟩, hnoev⟩
  | nextInput =>
    show NeverCurrent i (s.nextInput)
    unfold Core.nextInput
    split
    · exact NeverCurrent_setInput i { s with curCycle := s.curCycle + 1 } _
        ⟨hterm, hcur, hiN, hstop, ⟨f, rest, hq⟩, hnoev⟩
    · exact NeverCurrent_setInput i s _
        ⟨hterm, hcur, hiN, hstop, ⟨f, rest, hq⟩, hnoev⟩
  | previousInput =>
    exact NeverCurrent_setInput i s _
      ⟨hterm, hcur, hiN, hstop, ⟨f, rest, hq⟩, hnoev⟩
  | inputStarted j ok =>
    have halS : s.stateOf j = InputState.STARTING := hal
    have hji : j ≠ i := by
      intro hh
      subst hh
      rw [hstop] at halS
      exact absurd halS (by decide)
    have hskey : ∀ g : Bool, Action.sameKey (Action.mk ActionType.WAIT_STARTED j g)
        (Action.mk ActionType.WAIT_STARTED i f) = false := fun g =>
      sameKey_false_of_ne _ _ (fun hh => hji hh.2)
    cases ok with
    | true =>
      have he : (s.inputStarted j true).1 =
          { (s.setState j InputState.RUNNING) with
            events := insertEvent s.events ⟨ActionType.WAIT_STARTED, j, true⟩,
            actions := Action.mk ActionType.WAIT_STARTED i f :: rest } := by
        show ((s.setState j InputState.RUNNING).execute
          ⟨ActionType.WAIT_STARTED, j, true⟩, _).1 = _
        rw [execute_blocked (s.setState j InputState.RUNNING) _ _ rest hq hw
          (by intro hh; cases hh) (hasEvent_insert_false _ _ _ (hskey true) hnoevf)]
        rfl
      show NeverCurrent i ((s.inputStarted j true).1)
      rw [he]
      refine ⟨hterm, hcur, ?_, ?_, ⟨f, rest, rfl⟩, ?_⟩
      · show i < (s.setState j InputState.RUNNING).numInputs
        rw [numInputs_setState]
        exact hiN
      · show (s.setState j InputState.RUNNING).stateOf i = InputState.STOPPED
        rw [stateOf_setState_ne s j _ i hji]
        exact hstop
      · exact hasEvent_insert_false _ _ _ (hskey true) hnoev
    | false =>
      have hnc : ¬((!(s.setState j InputState.STOPPED).terminate &&
          !((s.setState j InputState.STOPPED).otherViable j)) = true) := by
        have h1 : (s.setState j InputState.STOPPED).terminate = true := hterm
        simp [h1]
      have he : (s.inputStarted j false).1 =
          { (s.setState j InputState.STOPPED) with
            events := insertEvent s.events ⟨ActionType.WAIT_STARTED, j, false⟩,
            actions := Action.mk ActionType.WAIT_STARTED i f :: rest } := by
        unfold Core.inputStarted
        dsimp only
        rw [if_neg Bool.false_ne_true, if_neg hnc]
        rw [execute_blocked (s.setState j InputState.STOPPED) _ _ rest hq hw
          (by intro hh; cases hh) (hasEvent_insert_false _ _ _ (hskey false) hnoevf)]
        rfl
      show NeverCurrent i ((s.inputStarted j false).1)
      rw [he]
      refine ⟨hterm, hcur, ?_, ?_, ⟨f, rest, rfl⟩, ?_⟩
      · show i < (s.setState j InputState.STOPPED).numInputs
        rw [numInputs_setState]
        exact hiN
      · show (s.setState j InputState.STOPPED).stateOf i = InputState.STOPPED
        exact stateOf_stopped_of_set s j i hiN hstop
      · exact hasEvent_insert_false _ _ _ (hskey false) hnoev
  | inputReceived j =>
    have hkey : Action.sameKey (Action.mk ActionType.WAIT_INPUT j false)
        (Action.mk ActionType.WAIT_STARTED i f) = false :=
      sameKey_false_of_ne _ _ (fun hh => ActionType.noConfusion hh.1)
    have he : (s.inputReceived j).1 =
        { s with
          events := insertEvent s.events ⟨ActionType.WAIT_INPUT, j, false⟩
          actions := Action.mk ActionType.WAIT_STARTED i f :: rest } := by
      show (s.execute ⟨ActionType.WAIT_INPUT, j, false⟩, _).1 = _
      rw [execute_blocked s _ _ rest hq hw (by intro hh; cases hh)
        (hasEvent_insert_false _ _ _ hkey hnoevf)]
    show NeverCurrent i ((s.inputReceived j).1)
    rw [he]
    exact ⟨hterm, hcur, hiN, hstop, ⟨f, rest, rfl⟩,
      hasEvent_insert_false _ _ _ hkey hnoev⟩
  | inputStopped j ok =>
    have hkey : Action.sameKey (Action.mk ActionType.WAIT_STOPPED j ok)
        (Action.mk ActionType.WAIT_STARTED i f) = false :=
      sameKey_false_of_ne _ _ (fun hh => ActionType.noConfusion hh.1)
    have he : (s.inputStopped j ok).1 =
        { (s.setState j InputState.STOPPED) with
          events := insertEvent s.events ⟨ActionType.WAIT_STOPPED, j, ok⟩,
          actions := Action.mk ActionType.WAIT_STARTED i f :: rest } := by
      show ((s.setState j InputState.STOPPED).execute
        ⟨ActionType.WAIT_STOPPED, j, ok⟩, _).1 = _
      rw [execute_blocked (s.setState j InputState.STOPPED) _ _ rest hq hw
        (by intro hh; cases hh) (hasEvent_insert_false _ _ _ hkey hnoevf)]
      rfl
    show NeverCurrent i ((s.inputStopped j ok).1)
    rw [he]
    refine ⟨hterm, hcur, ?_, ?_, ⟨f, rest, rfl⟩, ?_⟩
    · show i < (s.setState j InputState.STOPPED).numInputs
      rw [numInputs_setState]
      exact hiN
    · show (s.setState j InputState.STOPPED).stateOf i = InputState.STOPPED
      exact stateOf_stopped_of_set s j i hiN hstop
    · exact hasEvent_insert_false _ _ _ hkey hnoev
  | getOutputArea avail =>
    exact ⟨hterm, hcur, hiN, hstop, ⟨f, rest, hq⟩, hnoev⟩
  | outputSent j cnt =>
    exact ⟨hterm, hcur, hiN, hstop, ⟨f, rest, hq⟩, hnoev⟩
  | start lok idx =>
    have halA : s.inputStates.all (fun st => st = InputState.NOT_STARTED) = true := hal
    have hns := stateOf_all_not_started s i hiN halA
    rw [hstop] at hns
    exact absurd hns (by decide)

lemma NeverCurrent_steps (i : Nat) (s t : Core)
    (h : Relation.ReflTransGen GStep s t) (h0 : NeverCurrent i s) :
    NeverCurrent i t := by
  induction h with
  | refl => exact h0
  | tail h1 h2 ih =>
    obtain ⟨c, hc, rfl⟩ := h2
    exact NeverCurrent_preserved i _ c hc ih

/-- C8: when `inputStarted(i, false)` is reported while the switch to
input `i` is still pending (blocked on WAIT_STARTED i), no other viable
input exists, and termination has not begun, the coordinator invokes
`stop(false)` — terminate set, failure exit status, only stop actions
enqueued, the callback returns false — and input `i` never becomes
current in any subsequent contract-respecting sequence of operations. -/
theorem C8_failed_start_no_viable (s : Core) (i : Nat) (f : Bool) (rest : List Action)
    (hterm : s.terminate = false)
    (hi : i < s.numInputs)
    (hcur : s.curPlugin ≠ i)
    (hq : s.actions = Action.mk ActionType.WAIT_STARTED i f :: rest)
    (hnoev : hasEvent s.events ⟨ActionType.WAIT_STARTED, i, false⟩ = false)
    (hother : ∀ j, j < s.numInputs → j ≠ i → s.stateOf j = InputState.STOPPED) :
    (s.inputStarted i false).1.terminate = true ∧
    (s.inputStarted i false).1.exitSuccess = false ∧
    (s.inputStarted i false).2 = false ∧
    (∀ a, a ∈ (s.inputStarted i false).1.actions →
      a ∈ s.actions ∨ a.type = ActionType.STOP) ∧
    (∀ t, Relation.ReflTransGen GStep (s.inputStarted i false).1 t →
      t.curPlugin ≠ i) := by
  have hterm1 : (s.setState i InputState.STOPPED).terminate = false := hterm
  have hov : (s.setState i InputState.STOPPED).otherViable i = false := by
    unfold Core.otherViable
    rw [List.any_eq_false]
    intro j hjm
    have hj : j < s.numInputs := by
      have h0 := List.mem_range.mp hjm
      rwa [numInputs_setState] at h0
    by_cases hji : j = i
    · simp [hji]
    · have hst : (s.setState i InputState.STOPPED).stateOf j = InputState.STOPPED := by
        rw [stateOf_setState_ne s i _ j (fun hh => hji hh.symm)]
        exact hother j hj hji
      simp [Core.viable, hst]
  have hcond : (!(s.setState i InputState.STOPPED).terminate &&
      !((s.setState i InputState.STOPPED).otherViable i)) = true := by
    simp [hterm1, hov]
  have hE : (s.inputStarted i false).1 =
      Core.stop (s.setState i InputState.STOPPED) false := by
    unfold Core.inputStarted
    dsimp only
    rw [if_neg Bool.false_ne_true, if_pos hcond]
  have hS := stop_eq_of_live (s.setState i InputState.STOPPED) false hterm1
  refine ⟨?_, ?_, ?_, ?_, ?_⟩
  · rw [hE, hS]
  · rw [hE, hS]
  · rw [inputStarted_snd, hE, hS]
    rfl
  · intro a ha
    rw [hE, hS] at ha
    rcases List.mem_append.mp ha with h1 | h1
    · exact Or.inl h1
    · obtain ⟨j, hjm, hEq⟩ := List.mem_map.mp h1
      right
      rw [← hEq]
  · intro t ht
    have hNC : NeverCurrent i ((s.inputStarted i false).1) := by
      rw [hE, hS]
      refine ⟨rfl, hcur, ?_, ?_, ?_, hnoev⟩
      · show i < (s.setState i InputState.STOPPED).numInputs
        rw [numInputs_setState]
        exact hi
      · show (s.setState i InputState.STOPPED).stateOf i = InputState.STOPPED
        exact stateOf_setState_self s i _ hi
      · refine ⟨f, rest ++
          ((List.range (s.setState i InputState.STOPPED).numInputs).filter
            (fun j => (s.setState i InputState.STOPPED).isActive j)).map
            (fun j => ⟨ActionType.STOP, j, false⟩), ?_⟩
        show s.actions ++ _ = _
        rw [hq]
        rfl
    exact (NeverCurrent_steps i _ t ht hNC).2.1

/-- C8 witness: the two-input scenario with input 0 stopped and a pending
switch to input 1 whose start fails. -/
theorem C8_failed_start_no_viable_witness :
    (failDemo.inputStarted 1 false).1.terminate = true ∧
    (failDemo.inputStarted 1 false).1.exitSuccess = false ∧
    (failDemo.inputStarted 1 false).2 = false ∧
    (failDemo.inputStarted 1 false).1.curPlugin ≠ 1 := by
  have h := C8_failed_start_no_viable failDemo 1 false [] rfl (by decide) (by decide)
    rfl rfl (by decide)
  exact ⟨h.1, h.2.1, h.2.2.1, h.2.2.2.2 _ Relation.ReflTransGen.refl⟩

end TsSwitch
